import Mathlib

/-!
Shallow embedding of the ResumeScan resume parser
(`src/mcp/parser.py`, `src/mcp/models.py`).

Python strings are modelled as Lean `String`; Python `str.lower`,
`str.strip`, `str.split('\n')` and `'\n'.join` are modelled by the
executable functions `pyLower`, `pyStrip`, `pySplitLines` and
`pyJoinNl` defined below (faithful for ASCII text).  Python's
substring operator `in` is modelled by `containsSubstr` below.  The
heading "regular expressions" of the pattern catalog are all literal
strings without metacharacters, so `re.search(pattern, line)` is
exactly substring containment.

External collaborators (the contact-field regular-expression engines,
the file system, the PDF/DOCX/TXT text extractors, and the remote
Gemini correction service) are modelled as oracle parameters, as the
spec designates them external interfaces; every piece of decision
logic of the repository itself is translated from the source.
-/

namespace ResumeScan

/-- Is `n` a (list) prefix of `h`?  Executable helper for substring search. -/
def listStartsWith : List Char → List Char → Bool
  | [], _ => true
  | _ :: _, [] => false
  | a :: as, b :: bs => a = b && listStartsWith as bs

/-- Does the needle `n` occur contiguously inside the haystack `h`? -/
def listContains (n : List Char) : List Char → Bool
  | [] => listStartsWith n []
  | b :: bs => listStartsWith n (b :: bs) || listContains n bs

/-- Python's `needle in haystack` on strings: substring containment. -/
def containsSubstr (haystack needle : String) : Bool :=
  listContains needle.data haystack.data

/-!
Python string primitives, defined by structural recursion over the
character list of the string (Lean core's `String.toLower`,
`String.trim`, `String.splitOn` are byte-position-based and do not
reduce inside the kernel; these list-based versions have the same
meaning for the ASCII text this program manipulates and evaluate on
concrete inputs).
-/

/-- Python `str.lower` (ASCII). -/
def pyLower (s : String) : String :=
  ⟨s.data.map Char.toLower⟩

/-- The characters Python `str.strip()` removes (ASCII whitespace). -/
def isPyWhitespace (c : Char) : Bool :=
  c = ' ' || c = '\t' || c = '\n' || c = '\r' || c = '\x0b' || c = '\x0c'

/-- Python `str.strip()`: drop leading and trailing whitespace. -/
def pyStrip (s : String) : String :=
  ⟨((s.data.dropWhile isPyWhitespace).reverse.dropWhile isPyWhitespace).reverse⟩

/-- Split a character list at every newline character. -/
def splitNl : List Char → List (List Char)
  | [] => [[]]
  | c :: cs =>
    match splitNl cs, decide (c = '\n') with
    | r :: rs, true => [] :: r :: rs
    | r :: rs, false => (c :: r) :: rs
    | [], _ => [[]]

/-- Python `text.split('\n')` (keeps empty pieces; `""` gives `[""]`). -/
def pySplitLines (s : String) : List String :=
  (splitNl s.data).map (fun l => ⟨l⟩)

/-- Joined character lists, newline-separated. -/
def joinNl : List (List Char) → List Char
  | [] => []
  | [l] => l
  | l :: ls => l ++ '\n' :: joinNl ls

/-- Python `'\n'.join(parts)`. -/
def pyJoinNl (parts : List String) : String :=
  ⟨joinNl (parts.map String.data)⟩

/-- `ResumeSection` enumeration from `src/mcp/models.py`, in declaration
order (`contact, summary, experience, education, skills, projects,
certifications`). -/
inductive ResumeSection
  | contact
  | summary
  | experience
  | education
  | skills
  | projects
  | certifications
deriving DecidableEq, Repr

/-- The `.value` string of each enumeration member. -/
def sectionValue : ResumeSection → String
  | .contact => "contact"
  | .summary => "summary"
  | .experience => "experience"
  | .education => "education"
  | .skills => "skills"
  | .projects => "projects"
  | .certifications => "certifications"

/-- The enumeration members in declaration order (Python iterates an
`Enum` class, and a dict comprehension over it, in this order). -/
def allKinds : List ResumeSection :=
  [.contact, .summary, .experience, .education, .skills, .projects, .certifications]

/-- `ResumeBlock` from `src/mcp/models.py`.  The Python field `section`
is spelled `sectionKind` here because `section` is reserved in Lean;
the float `confidence` (always `1.0`) is modelled as a rational. -/
structure ResumeBlock where
  content : String
  sectionKind : ResumeSection
  keywords : List String
  confidence : ℚ := 1
deriving DecidableEq, Repr

/-- `ContactInfo` from `src/mcp/models.py`. -/
structure ContactInfo where
  name : Option String := none
  email : Option String := none
  phone : Option String := none
  location : Option String := none
  linkedin : Option String := none
deriving DecidableEq, Repr

/-- `ParsedResume` from `src/mcp/models.py`.  The `sections` dict is
modelled as an association list so that which keys are present is an
observable fact (claimable), exactly as for a Python dict. -/
structure ParsedResume where
  raw_text : String
  contact_info : ContactInfo
  sections : List (ResumeSection × List ResumeBlock)
  all_keywords : List String
  file_path : Option String := none
deriving DecidableEq, Repr

/-- `ParseResult` from `src/mcp/models.py`. -/
structure ParseResult where
  success : Bool
  resume : Option ParsedResume := none
  errors : List String := []
  messages : List String := []
deriving DecidableEq, Repr

/-! ## Pattern catalog (`ResumeParser.__init__`, `src/mcp/parser.py` lines 43-91) -/

def summaryPatterns : List String :=
  ["summary", "profile", "objective", "about", "professional summary", "career summary"]

def experiencePatterns : List String :=
  ["experience", "work history", "employment", "professional experience", "work experience"]

def educationPatterns : List String :=
  ["education", "academic", "degree", "university", "college", "school"]

def skillsPatterns : List String :=
  ["skills", "competencies", "technologies", "tools", "programming languages"]

def projectsPatterns : List String :=
  ["projects", "portfolio", "achievements", "key projects", "notable projects"]

def certificationsPatterns : List String :=
  ["certifications", "certificates", "licenses", "accreditations", "training"]

/-- `self.section_patterns`: an insertion-ordered dict (Python 3.7+)
from section to heading patterns; note there is no entry for
`contact`. -/
def sectionPatterns : List (ResumeSection × List String) :=
  [(.summary, summaryPatterns),
   (.experience, experiencePatterns),
   (.education, educationPatterns),
   (.skills, skillsPatterns),
   (.projects, projectsPatterns),
   (.certifications, certificationsPatterns)]

/-- `self.tech_keywords` (lines 71-91). -/
def techKeywords : List String :=
  ["python", "java", "javascript", "typescript", "c++", "c#", "php",
   "ruby", "go", "rust", "swift", "kotlin", "scala", "r", "matlab",
   "react", "vue", "angular", "node.js", "express", "django", "flask",
   "spring", "laravel", "asp.net", "jquery", "bootstrap", "tailwind",
   "sql", "mysql", "postgresql", "mongodb", "redis", "oracle",
   "sqlite", "mariadb", "cassandra", "dynamodb",
   "aws", "azure", "gcp", "docker", "kubernetes", "jenkins",
   "git", "github", "gitlab", "ci/cd", "terraform", "ansible",
   "jira", "confluence", "slack", "figma", "adobe", "photoshop",
   "excel", "powerpoint", "word", "tableau", "power bi"]

/-- `common_keywords` from `_extract_keywords` (lines 324-331). -/
def commonKeywords : List String :=
  ["leadership", "management", "project", "team", "development",
   "analysis", "design", "implementation", "testing", "deployment",
   "agile", "scrum", "kanban", "waterfall", "methodology",
   "research", "data", "analytics", "machine learning", "ai",
   "frontend", "backend", "fullstack", "api", "rest", "graphql",
   "microservices", "architecture", "database", "optimization"]

/-! ## Keyword extractor (`_extract_keywords`, lines 313-337) -/

/-- `_extract_keywords`: lower-case the span once, collect every
vocabulary entry contained as a substring, de-duplicate.  (Python
returns `list(set(found))` whose order is unspecified; the model keeps
first-occurrence order, the same set of strings.) -/
def extractKeywords (text : String) : List String :=
  (((techKeywords ++ commonKeywords).filter
      (fun k => containsSubstr (pyLower text) k))).dedup

/-! ## Contact extractor (`_extract_contact_info`, lines 234-265) -/

/-- The stoplist of line 261. -/
def nameStoplist : List String := ["resume", "cv", "email", "phone", "linkedin"]

/-- The per-line test of lines 257-261, applied to the stripped line:
non-empty, length strictly between 2 and 50, and no stoplist word
contained case-insensitively. -/
def nameQualifies (line : String) : Bool :=
  !line.data.isEmpty && line.length > 2 && line.length < 50 &&
    !(nameStoplist.any (fun k => containsSubstr (pyLower line) k))

/-- The `for line in lines[:10]` loop body of lines 255-263: strip each
line, return the first stripped line that qualifies. -/
def nameLoop : List String → Option String
  | [] => none
  | l :: rest =>
    let line := pyStrip l
    if nameQualifies line then some line else nameLoop rest

/-- The name heuristic of `_extract_contact_info` (lines 253-263):
`lines = text.split('\n')` and scan `lines[:10]`. -/
def extractContactName (text : String) : Option String :=
  nameLoop ((pySplitLines text).take 10)

/-- The three contact regular-expression searches (`re.findall` for
email / phone / linkedin, lines 238-251) are external pattern-matching
collaborators; each oracle returns the already-assembled first match,
or `none` when there is no match (for phone, the joined capture
groups; for linkedin, the bare match before the scheme prefix). -/
structure RegexOracles where
  emailFind : String → Option String
  phoneFind : String → Option String
  linkedinFind : String → Option String

/-- `_extract_contact_info` (lines 234-265). -/
def extractContactInfo (ro : RegexOracles) (text : String) : ContactInfo :=
  { email := ro.emailFind text
    phone := ro.phoneFind text
    linkedin := (ro.linkedinFind text).map (fun m => "https://" ++ m)
    name := extractContactName text
    location := none }

/-! ## Section segmenter (`_parse_sections`, lines 267-300) -/

/-- `sections = {section: [] for section in ResumeSection}` (line 269). -/
def emptySections : List (ResumeSection × List ResumeBlock) :=
  allKinds.map (fun s => (s, []))

/-- `sections[current_section].append(block)`: append a block to the
entry of key `s` (keys are unique, so mapping over the list is the
dict update). -/
def appendBlock (secs : List (ResumeSection × List ResumeBlock))
    (s : ResumeSection) (b : ResumeBlock) : List (ResumeSection × List ResumeBlock) :=
  secs.map (fun p => if p.1 = s then (p.1, p.2 ++ [b]) else p)

/-- `_create_block` (lines 302-311). -/
def createBlock (content : List String) (s : ResumeSection) : ResumeBlock :=
  let text := pyJoinNl content
  { content := text, sectionKind := s, keywords := extractKeywords text }

/-- Does the line match any pattern of one section (`any(re.search(...))`,
line 281)?  All patterns are metacharacter-free literals, so `re.search`
is substring containment on the lowered paragraph. -/
def sectionMatches (patterns : List String) (paragraph : String) : Bool :=
  patterns.any (fun p => containsSubstr (pyLower paragraph) p)

/-- The inner `for section, patterns in self.section_patterns.items()`
loop with `break` (lines 280-290): the first catalog entry whose
patterns match the paragraph, if any. -/
def findSection (paragraph : String) : Option ResumeSection :=
  (sectionPatterns.find? (fun sp => sectionMatches sp.2 paragraph)).map Prod.fst

/-- `paragraphs = [p.strip() for p in text.split('\n') if p.strip()]`
(line 272). -/
def nonEmptyLines (text : String) : List String :=
  ((pySplitLines text).map pyStrip).filter (fun l => !l.data.isEmpty)

/-- The main loop of `_parse_sections` (lines 274-298), translated with
the loop state (`current_section`, `current_content`, `sections`)
passed explicitly.  The second component of the result is a ghost
trace that records, in order, each `_create_block(current_content,
current_section)` call's arguments — pure instrumentation used to state
the partition property; the first component is exactly the `sections`
dict the source returns. -/
def parseSectionsGo :
    List String → ResumeSection → List String →
    List (ResumeSection × List ResumeBlock) → List (ResumeSection × List String) →
    List (ResumeSection × List ResumeBlock) × List (ResumeSection × List String)
  | [], _, [], secs, em => (secs, em)
  | [], cur, b :: bs, secs, em =>
    (appendBlock secs cur (createBlock (b :: bs) cur), em ++ [(cur, b :: bs)])
  | p :: rest, cur, buf, secs, em =>
    match findSection p with
    | some s =>
      match buf with
      | [] => parseSectionsGo rest s [p] secs em
      | b :: bs =>
        parseSectionsGo rest s [p]
          (appendBlock secs cur (createBlock (b :: bs) cur)) (em ++ [(cur, b :: bs)])
    | none => parseSectionsGo rest cur (buf ++ [p]) secs em

/-- `_parse_sections` with its instrumentation trace. -/
def parseSectionsFull (text : String) :
    List (ResumeSection × List ResumeBlock) × List (ResumeSection × List String) :=
  parseSectionsGo (nonEmptyLines text) .summary [] emptySections []

/-- `_parse_sections` (lines 267-300): the returned sections dict. -/
def parseSections (text : String) : List (ResumeSection × List ResumeBlock) :=
  (parseSectionsFull text).1

/-- The emission-ordered trace of `(section, lines)` groups flushed by
`_create_block` during `_parse_sections`. -/
def emittedGroups (text : String) : List (ResumeSection × List String) :=
  (parseSectionsFull text).2

/-- The blocks of the trace with a given section kind, in emission
order. -/
def emittedFor (em : List (ResumeSection × List String)) (s : ResumeSection) :
    List ResumeBlock :=
  em.filterMap (fun g => if g.1 = s then some (createBlock g.2 g.1) else none)

/-! ## Remote section correction (`_llm_section_correction`,
`_parsed_resume_from_llm`, lines 339-424) -/

/-- One `{content, keywords}` object of the remote response, with the
`dict.get` defaults of lines 411-413 modelled by `Option`. -/
structure LLMBlockData where
  content : Option String := none
  keywords : Option (List String) := none

/-- The JSON object extracted from the remote response: possibly a
`sections` key mapping section-name strings to block lists.  `none`
models a JSON object without a `"sections"` key (line 406). -/
structure LLMData where
  sections : Option (List (String × List LLMBlockData)) := none

/-- `_parsed_resume_from_llm` (lines 398-424): rebuild the section map
over every enumeration member from the response, sections absent from
the response becoming empty; recompute `all_keywords` as the
de-duplicated union of the new blocks' keywords; carry raw text,
contact info and file path over from the original. -/
def parsedResumeFromLLM (llmData : LLMData) (original : ParsedResume) : ParsedResume :=
  let new_sections : List (ResumeSection × List ResumeBlock) :=
    allKinds.map (fun s =>
      (s, match llmData.sections with
          | none => []
          | some m =>
            ((m.lookup (sectionValue s)).getD []).map (fun bd =>
              { content := bd.content.getD ""
                sectionKind := s
                keywords := bd.keywords.getD [] })))
  let all_keywords :=
    (new_sections.map (fun p => p.2.map (fun b => b.keywords))).flatten.flatten.dedup
  { raw_text := original.raw_text
    contact_info := original.contact_info
    sections := new_sections
    all_keywords := all_keywords
    file_path := original.file_path }

/-- The remote exchange of lines 344-357 (prompt, transport, response
text, brace extraction, JSON decoding) is an external collaborator;
its outcome for a given pre-correction document is an oracle value:
`Except.error e` covers every failure mode (transport error, empty
response, no JSON object, malformed JSON), `Except.ok data` a decoded
JSON object. -/
def LLMOracle := ParsedResume → Except String LLMData

/-- `_llm_section_correction` (lines 339-370). -/
def llmSectionCorrection (useLLM : Bool) (oracle : Except String LLMData)
    (parsed : ParsedResume) : ParseResult :=
  if useLLM = false then
    { success := true, resume := some parsed, messages := ["LLM correction disabled"] }
  else
    match oracle with
    | .error e =>
      { success := false, resume := some parsed,
        errors := ["LLM correction error: " ++ e] }
    | .ok data =>
      { success := true, resume := some (parsedResumeFromLLM data parsed),
        messages := ["Sections verified/corrected by Gemini Pro"] }

/-! ## Parse orchestrator (`_parse_text`, `parse_text`, `parse_file`,
lines 101-232) -/

/-- Lines 192-208 of `_parse_text`: the pre-correction
(`parsed_resume`) document built by the local pipeline. -/
def localParse (ro : RegexOracles) (text : String) (filePath : Option String) :
    ParsedResume :=
  { raw_text := text
    contact_info := extractContactInfo ro text
    sections := parseSections text
    all_keywords := extractKeywords text
    file_path := filePath }

/-- `_parse_text` (lines 189-232): build the local document, then, when
correction is enabled, attempt it and fall back to the local document
when it fails. -/
def parseTextInner (ro : RegexOracles) (useLLM : Bool) (llm : LLMOracle)
    (text : String) (filePath : Option String) : ParseResult :=
  let parsed := localParse ro text filePath
  if useLLM then
    let r := llmSectionCorrection useLLM (llm parsed) parsed
    if r.success then r
    else
      { success := true, resume := some parsed,
        messages := ["LLM correction failed, using initial parse."] ++ r.errors }
  else
    { success := true, resume := some parsed,
      messages := ["Resume parsed successfully"] }

/-- `parse_text` (lines 140-155). -/
def parse_text (ro : RegexOracles) (useLLM : Bool) (llm : LLMOracle)
    (text : String) : ParseResult :=
  if (pyStrip text).data.isEmpty then
    { success := false, errors := ["No text content provided"] }
  else
    parseTextInner ro useLLM llm text none

/-- The file system and the three format-specific text extractors
(`os.path.exists`, `pdfplumber`, `python-docx`, `open(...).read()`,
lines 104-118 and 157-187) are external collaborators; for one call of
`parse_file` they are summarized by the oracle below.  `suffix` is
`Path(file_path).suffix`; `extract` is the outcome of whichever
extractor would run (`Except.error` models a raised extraction
exception, caught by the handler of line 134). -/
structure FileOracle where
  pathExists : Bool
  suffix : String
  extract : Except String String

/-- `parse_file` (lines 101-138). -/
def parse_file (ro : RegexOracles) (useLLM : Bool) (llm : LLMOracle)
    (filePath : String) (fo : FileOracle) : ParseResult :=
  if fo.pathExists = false then
    { success := false, errors := ["File not found: " ++ filePath] }
  else
    let fileExt := pyLower fo.suffix
    if fileExt = ".pdf" || fileExt = ".docx" || fileExt = ".txt" then
      match fo.extract with
      | .error e =>
        { success := false, errors := ["Error parsing file: " ++ e] }
      | .ok text =>
        if (pyStrip text).data.isEmpty then
          { success := false, errors := ["No text content found in file"] }
        else
          parseTextInner ro useLLM llm text (some filePath)
    else
      { success := false, errors := ["Unsupported file format: " ++ fileExt] }

/-! ## Derived notions used to state the claims -/

/-- The catalog enumeration order in which `_parse_sections` tests the
heading patterns (the insertion order of `section_patterns`). -/
def catalogOrder : List ResumeSection :=
  [.summary, .experience, .education, .skills, .projects, .certifications]

/-- Position of a section in the catalog testing order (sections not in
the catalog — only `contact` — sort last). -/
def catalogIdx : ResumeSection → Nat
  | .summary => 0
  | .experience => 1
  | .education => 2
  | .skills => 3
  | .projects => 4
  | .certifications => 5
  | .contact => 6

/-- The heading patterns the catalog holds for one section kind. -/
def kindPatterns (s : ResumeSection) : List String :=
  (sectionPatterns.lookup s).getD []

/-- Does a line match some heading pattern of the given section kind? -/
def matchesKind (s : ResumeSection) (paragraph : String) : Bool :=
  sectionMatches (kindPatterns s) paragraph

/-- The name heuristic as claim C4 words it (scan at most the first 10
NON-EMPTY lines); stated from the claim, not the source, in order to
compare the two. -/
def claimNameHeuristic (text : String) : Option String :=
  ((nonEmptyLines text).take 10).find? nameQualifies

/-- Ten blank lines followed by a qualifying name line. -/
def tenBlankLinesInput : String := "\n\n\n\n\n\n\n\n\n\nJane Doe"

/-! ## Shared witness fixtures -/

/-- Regex oracle with no email / phone / linkedin matches. -/
def oracleNone : RegexOracles :=
  { emailFind := fun _ => none, phoneFind := fun _ => none, linkedinFind := fun _ => none }

/-- A remote-correction oracle whose every exchange fails. -/
def llmNone : LLMOracle := fun _ => Except.error "unavailable"

/-- Witness oracles for C9: a missing file, an unsupported extension,
an empty extraction, and a successful extraction. -/
def foMissing : FileOracle := { pathExists := false, suffix := ".pdf", extract := Except.ok "x" }

def foBadExt : FileOracle := { pathExists := true, suffix := ".rtf", extract := Except.ok "x" }

def foEmptyText : FileOracle := { pathExists := true, suffix := ".txt", extract := Except.ok "   " }

def foGoodText : FileOracle := { pathExists := true, suffix := ".txt", extract := Except.ok "skills" }

/-! ## Lemma kit for the section segmenter -/

@[simp] lemma kindPatterns_contact : kindPatterns .contact = [] := rfl

@[simp] lemma kindPatterns_summary : kindPatterns .summary = summaryPatterns := rfl

@[simp] lemma kindPatterns_experience : kindPatterns .experience = experiencePatterns := rfl

@[simp] lemma kindPatterns_education : kindPatterns .education = educationPatterns := rfl

@[simp] lemma kindPatterns_skills : kindPatterns .skills = skillsPatterns := rfl

@[simp] lemma kindPatterns_projects : kindPatterns .projects = projectsPatterns := rfl

@[simp] lemma kindPatterns_certifications :
    kindPatterns .certifications = certificationsPatterns := rfl

@[simp] lemma matchesKind_contact (p : String) : matchesKind .contact p = false := rfl

lemma appendBlock_fst (secs : List (ResumeSection × List ResumeBlock))
    (s : ResumeSection) (b : ResumeBlock) :
    (appendBlock secs s b).map Prod.fst = secs.map Prod.fst := by
  induction secs with
  | nil => rfl
  | cons p rest ih =>
    by_cases h : p.1 = s <;> simp [appendBlock, h] <;> simpa [appendBlock] using ih

lemma lookup_appendBlock (secs : List (ResumeSection × List ResumeBlock))
    (s : ResumeSection) (b : ResumeBlock) (s' : ResumeSection) :
    (appendBlock secs s b).lookup s' =
      (secs.lookup s').map (fun v => if s' = s then v ++ [b] else v) := by
  induction secs with
  | nil => rfl
  | cons p rest ih =>
    obtain ⟨k, v⟩ := p
    simp only [appendBlock, List.map_cons]
    by_cases h1 : k = s
    · rw [if_pos h1, List.lookup_cons, List.lookup_cons]
      by_cases h2 : s' = k
      · have hb : (s' == k) = true := by simp [h2]
        have hss : s' = s := h2.trans h1
        simp only [hb]
        simp [hss]
      · have hb : (s' == k) = false := by simp [h2]
        simp only [hb]
        simpa [appendBlock] using ih
    · rw [if_neg h1, List.lookup_cons, List.lookup_cons]
      by_cases h2 : s' = k
      · have hb : (s' == k) = true := by simp [h2]
        have hss : ¬ s' = s := fun he => h1 (h2.symm.trans he)
        simp only [hb]
        simp [hss]
      · have hb : (s' == k) = false := by simp [h2]
        simp only [hb]
        simpa [appendBlock] using ih

lemma lookup_emptySections (s : ResumeSection) : emptySections.lookup s = some [] := by
  cases s <;> rfl

lemma go_fst (ls : List String) (cur : ResumeSection) (buf : List String)
    (secs : List (ResumeSection × List ResumeBlock))
    (em : List (ResumeSection × List String)) :
    ((parseSectionsGo ls cur buf secs em).1).map Prod.fst = secs.map Prod.fst := by
  induction ls generalizing cur buf secs em with
  | nil => cases buf <;> simp [parseSectionsGo, appendBlock_fst]
  | cons p rest ih =>
    rcases h : findSection p with _ | s
    · simpa [parseSectionsGo, h] using ih cur (buf ++ [p]) secs em
    · cases buf with
      | nil => simpa [parseSectionsGo, h] using ih s [p] secs em
      | cons x xs =>
        simp only [parseSectionsGo, h]
        rw [ih s [p] (appendBlock secs cur (createBlock (x :: xs) cur)) (em ++ [(cur, x :: xs)]),
          appendBlock_fst]

lemma go_em (ls : List String) (cur : ResumeSection) (buf : List String)
    (secs : List (ResumeSection × List ResumeBlock))
    (em : List (ResumeSection × List String)) :
    parseSectionsGo ls cur buf secs em =
      ((parseSectionsGo ls cur buf secs []).1,
        em ++ (parseSectionsGo ls cur buf secs []).2) := by
  induction ls generalizing cur buf secs em with
  | nil => cases buf <;> simp [parseSectionsGo]
  | cons p rest ih =>
    rcases h : findSection p with _ | s
    · simpa [parseSectionsGo, h] using ih cur (buf ++ [p]) secs em
    · cases buf with
      | nil => simpa [parseSectionsGo, h] using ih s [p] secs em
      | cons x xs =>
        simp only [parseSectionsGo, h]
        rw [ih s [p] _ (em ++ [(cur, x :: xs)]), ih s [p] _ ([] ++ [(cur, x :: xs)])]
        simp

lemma go_flatten (ls : List String) (cur : ResumeSection) (buf : List String)
    (secs : List (ResumeSection × List ResumeBlock)) :
    ((parseSectionsGo ls cur buf secs []).2.map Prod.snd).flatten = buf ++ ls := by
  induction ls generalizing cur buf secs with
  | nil => cases buf <;> simp [parseSectionsGo]
  | cons p rest ih =>
    rcases h : findSection p with _ | s
    · simpa [parseSectionsGo, h] using ih cur (buf ++ [p]) secs
    · cases buf with
      | nil => simpa [parseSectionsGo, h] using ih s [p] secs
      | cons x xs =>
        simp only [parseSectionsGo, h]
        rw [go_em rest s [p] _ ([] ++ [(cur, x :: xs)])]
        simpa using ih s [p] (appendBlock secs cur (createBlock (x :: xs) cur))

lemma emittedFor_append (em₁ em₂ : List (ResumeSection × List String)) (s : ResumeSection) :
    emittedFor (em₁ ++ em₂) s = emittedFor em₁ s ++ emittedFor em₂ s := by
  simp [emittedFor]

lemma go_lookup (ls : List String) (cur : ResumeSection) (buf : List String)
    (secs : List (ResumeSection × List ResumeBlock)) (s : ResumeSection) :
    ((parseSectionsGo ls cur buf secs []).1).lookup s =
      (secs.lookup s).map (fun v => v ++ emittedFor ((parseSectionsGo ls cur buf secs []).2) s) := by
  induction ls generalizing cur buf secs with
  | nil =>
    cases buf with
    | nil => simp [parseSectionsGo, emittedFor]
    | cons x xs =>
      simp only [parseSectionsGo]
      rw [lookup_appendBlock]
      rcases secs.lookup s with _ | v
      · simp
      · by_cases hc : s = cur
        · simp [emittedFor, hc]
        · simp [emittedFor, hc, Ne.symm hc]
  | cons p rest ih =>
    rcases h : findSection p with _ | s₀
    · simpa [parseSectionsGo, h] using ih cur (buf ++ [p]) secs
    · cases buf with
      | nil => simpa [parseSectionsGo, h] using ih s₀ [p] secs
      | cons x xs =>
        simp only [parseSectionsGo, h]
        rw [go_em rest s₀ [p] _ ([] ++ [(cur, x :: xs)])]
        rw [ih s₀ [p] (appendBlock secs cur (createBlock (x :: xs) cur))]
        rw [lookup_appendBlock]
        rcases secs.lookup s with _ | v
        · simp
        · by_cases hc : s = cur
          · simp [emittedFor_append, emittedFor, hc]
          · simp [emittedFor_append, emittedFor, hc, Ne.symm hc]

lemma parseSections_fst (text : String) :
    (parseSections text).map Prod.fst = allKinds := by
  have h := go_fst (nonEmptyLines text) .summary [] emptySections []
  simpa [parseSections, parseSectionsFull, emptySections, allKinds] using h

lemma parseSections_lookup (text : String) (s : ResumeSection) :
    (parseSections text).lookup s = some (emittedFor (emittedGroups text) s) := by
  have h := go_lookup (nonEmptyLines text) .summary [] emptySections s
  rw [lookup_emptySections] at h
  simpa [parseSections, parseSectionsFull, emittedGroups] using h

lemma emittedGroups_flatten (text : String) :
    ((emittedGroups text).map Prod.snd).flatten = nonEmptyLines text := by
  simpa [emittedGroups, parseSectionsFull] using
    go_flatten (nonEmptyLines text) .summary [] emptySections

/-! ## Lemma kit for the heading catalog -/

lemma findSection_ne_contact (p : String) : findSection p ≠ some .contact := by
  intro h
  rcases hf : sectionPatterns.find? (fun sp => sectionMatches sp.2 p) with _ | sp
  · simp [findSection, hf] at h
  · have hm := List.mem_of_find?_eq_some hf
    have h1 : sp.1 = ResumeSection.contact := by
      simpa [findSection, hf] using h
    simp [sectionPatterns] at hm
    rcases hm with h' | h' | h' | h' | h' | h' <;> simp [h'] at h1

lemma go_contact (ls : List String) (cur : ResumeSection) (buf : List String)
    (secs : List (ResumeSection × List ResumeBlock))
    (em : List (ResumeSection × List String))
    (hc : cur ≠ .contact) (hem : ∀ g ∈ em, g.1 ≠ ResumeSection.contact) :
    ∀ g ∈ (parseSectionsGo ls cur buf secs em).2, g.1 ≠ ResumeSection.contact := by
  induction ls generalizing cur buf secs em with
  | nil =>
    cases buf with
    | nil => simpa [parseSectionsGo] using hem
    | cons x xs =>
      intro g hg
      simp only [parseSectionsGo] at hg
      rcases List.mem_append.mp hg with h' | h'
      · exact hem g h'
      · simp at h'
        rw [h']
        exact hc
  | cons p rest ih =>
    rcases h : findSection p with _ | s
    · simpa [parseSectionsGo, h] using ih cur (buf ++ [p]) secs em hc hem
    · have hs : s ≠ .contact := by
        intro he
        exact findSection_ne_contact p (he ▸ h)
      cases buf with
      | nil => simpa [parseSectionsGo, h] using ih s [p] secs em hs hem
      | cons x xs =>
        simp only [parseSectionsGo, h]
        refine ih s [p] _ (em ++ [(cur, x :: xs)]) hs ?_
        intro g hg
        rcases List.mem_append.mp hg with h' | h'
        · exact hem g h'
        · simp at h'
          rw [h']
          exact hc

lemma emittedGroups_ne_contact (text : String) :
    ∀ g ∈ emittedGroups text, g.1 ≠ ResumeSection.contact := by
  simpa [emittedGroups, parseSectionsFull] using
    go_contact (nonEmptyLines text) .summary [] emptySections []
      (by simp) (by simp)

lemma emittedFor_eq_nil {em : List (ResumeSection × List String)} {s : ResumeSection}
    (h : ∀ g ∈ em, g.1 ≠ s) : emittedFor em s = [] := by
  induction em with
  | nil => rfl
  | cons g rest ih =>
    have h1 : g.1 ≠ s := h g (by simp)
    simp only [emittedFor, List.filterMap_cons, if_neg h1]
    exact ih (fun g' hg' => h g' (by simp [hg']))

lemma findSection_eq_find_catalog (p : String) :
    findSection p = catalogOrder.find? (fun s => matchesKind s p) := by
  by_cases h1 : sectionMatches summaryPatterns p <;>
  by_cases h2 : sectionMatches experiencePatterns p <;>
  by_cases h3 : sectionMatches educationPatterns p <;>
  by_cases h4 : sectionMatches skillsPatterns p <;>
  by_cases h5 : sectionMatches projectsPatterns p <;>
  by_cases h6 : sectionMatches certificationsPatterns p <;>
    simp [findSection, sectionPatterns, catalogOrder, matchesKind,
      h1, h2, h3, h4, h5, h6]

lemma find?_min_idx {α : Type} [DecidableEq α] :
    ∀ (l : List α) (pr : α → Bool) (a : α), l.find? pr = some a →
      ∀ b, pr b = true → b ∈ l → l.indexOf a ≤ l.indexOf b := by
  intro l
  induction l with
  | nil => simp
  | cons x xs ih =>
    intro pr a h b hb hmem
    by_cases hx : pr x
    · rw [List.find?_cons_of_pos _ hx] at h
      obtain rfl : x = a := by simpa using h
      simp [List.indexOf_cons_self]
    · rw [List.find?_cons_of_neg _ hx] at h
      have hax : a ≠ x := by
        intro he
        exact hx (he ▸ List.find?_some h)
      have hbx : b ≠ x := by
        intro he
        exact hx (he ▸ hb)
      have hbmem : b ∈ xs := by
        rcases List.mem_cons.mp hmem with h' | h'
        · exact absurd h' hbx
        · exact h'
      rw [List.indexOf_cons_ne _ (Ne.symm hax), List.indexOf_cons_ne _ (Ne.symm hbx)]
      exact Nat.succ_le_succ (ih pr a h b hb hbmem)

lemma catalogIdx_eq_indexOf (s : ResumeSection) (hs : s ≠ .contact) :
    catalogIdx s = catalogOrder.indexOf s := by
  cases s <;> first
  | exact absurd rfl hs
  | rfl

lemma mem_catalogOrder (s : ResumeSection) (hs : s ≠ .contact) : s ∈ catalogOrder := by
  cases s <;> simp_all [catalogOrder]

lemma matchesKind_ne_contact {s : ResumeSection} {p : String}
    (h : matchesKind s p = true) : s ≠ .contact := by
  intro he
  rw [he] at h
  simp at h

/-! ## Miscellaneous helper lemmas -/

lemma isEmpty_data_eq_false {s : String} (h : s ≠ "") : s.data.isEmpty = false := by
  cases s with
  | mk d =>
    cases d with
    | nil => exact absurd (by decide) h
    | cons c cs => rfl

lemma listStartsWith_refl (l : List Char) : listStartsWith l l = true := by
  induction l with
  | nil => rfl
  | cons a as ih => simp [listStartsWith, ih]

lemma listContains_append_right (pre n : List Char) : listContains n (pre ++ n) = true := by
  induction pre with
  | nil =>
    cases n with
    | nil => rfl
    | cons c cs => simp [listContains, listStartsWith_refl]
  | cons p ps ih => simp [listContains, ih]

lemma containsSubstr_append_right (pre s : String) :
    containsSubstr (pre ++ s) s = true := by
  simpa [containsSubstr] using listContains_append_right pre.data s.data

lemma parsedResumeFromLLM_sections_fst (d : LLMData) (orig : ParsedResume) :
    (parsedResumeFromLLM d orig).sections.map Prod.fst = allKinds := by
  rw [parsedResumeFromLLM]
  rw [List.map_map]
  exact List.map_id allKinds

/-! ## Orchestrator evaluation lemmas -/

lemma parse_text_nonempty (ro : RegexOracles) (useLLM : Bool) (llm : LLMOracle)
    (text : String) (h : pyStrip text ≠ "") :
    parse_text ro useLLM llm text = parseTextInner ro useLLM llm text none := by
  simp [parse_text, isEmpty_data_eq_false h]

lemma parseTextInner_disabled (ro : RegexOracles) (llm : LLMOracle)
    (text : String) (fp : Option String) :
    parseTextInner ro false llm text fp =
      { success := true, resume := some (localParse ro text fp),
        messages := ["Resume parsed successfully"] } := rfl

lemma parseTextInner_llm_error (ro : RegexOracles) (llm : LLMOracle)
    (text : String) (fp : Option String) (e : String)
    (he : llm (localParse ro text fp) = Except.error e) :
    parseTextInner ro true llm text fp =
      { success := true, resume := some (localParse ro text fp),
        messages := ["LLM correction failed, using initial parse.",
                     "LLM correction error: " ++ e] } := by
  simp only [parseTextInner, llmSectionCorrection, he]
  simp

lemma parseTextInner_llm_ok (ro : RegexOracles) (llm : LLMOracle)
    (text : String) (fp : Option String) (data : LLMData)
    (hok : llm (localParse ro text fp) = Except.ok data) :
    parseTextInner ro true llm text fp =
      { success := true, resume := some (parsedResumeFromLLM data (localParse ro text fp)),
        messages := ["Sections verified/corrected by Gemini Pro"] } := by
  simp only [parseTextInner, llmSectionCorrection, hok]
  simp

/-! ## Claims -/

/-- C1: for every input text that is non-empty after trimming,
`parse_text` returns a result with `success = true` and a document
whose sections map carries exactly the seven `ResumeSection`
enumeration values — `contact, summary, experience, education, skills,
projects, certifications` — as keys, in that order, each mapped to a
(possibly empty) block list, whatever the correction configuration and
oracle. -/
theorem parse_text_sections_keys_complete (ro : RegexOracles) (useLLM : Bool)
    (llm : LLMOracle) (text : String) (h : pyStrip text ≠ "") :
    (parse_text ro useLLM llm text).success = true ∧
    ∃ d, (parse_text ro useLLM llm text).resume = some d ∧
      d.sections.map Prod.fst = allKinds := by
  rw [parse_text_nonempty ro useLLM llm text h]
  cases useLLM with
  | false =>
    rw [parseTextInner_disabled]
    exact ⟨rfl, localParse ro text none, rfl, parseSections_fst text⟩
  | true =>
    rcases he : llm (localParse ro text none) with e | data
    · rw [parseTextInner_llm_error ro llm text none e he]
      exact ⟨rfl, localParse ro text none, rfl, parseSections_fst text⟩
    · rw [parseTextInner_llm_ok ro llm text none data he]
      exact ⟨rfl, parsedResumeFromLLM data (localParse ro text none), rfl,
        parsedResumeFromLLM_sections_fst data (localParse ro text none)⟩

/-- Witness for C1 at the concrete input `"skills"`. -/
theorem parse_text_sections_keys_complete_witness :
    pyStrip "skills" ≠ "" ∧
    ((parse_text oracleNone false llmNone "skills").success = true ∧
      ∃ d, (parse_text oracleNone false llmNone "skills").resume = some d ∧
        d.sections.map Prod.fst = allKinds) :=
  ⟨by decide, parse_text_sections_keys_complete oracleNone false llmNone "skills" (by decide)⟩

/-- C2: the trace of `(section, lines)` groups flushed by the segmenter
partitions the non-empty trimmed input lines: flattening the groups in
emission order reconstructs the line sequence exactly, each block's
content is the newline-join of its group's lines, and each section's
block list in the returned map consists exactly of the blocks built
from that section's groups, in emission order. -/
theorem segmenter_blocks_partition_lines (text : String) :
    ((emittedGroups text).map Prod.snd).flatten = nonEmptyLines text ∧
    (∀ g ∈ emittedGroups text, (createBlock g.2 g.1).content = pyJoinNl g.2) ∧
    (∀ s, (parseSections text).lookup s =
      some (emittedFor (emittedGroups text) s)) :=
  ⟨emittedGroups_flatten text, fun _ _ => rfl, parseSections_lookup text⟩

/-- Witness for C2 at the concrete input `"skills\npython"`. -/
theorem segmenter_blocks_partition_lines_witness :
    ((emittedGroups "skills\npython").map Prod.snd).flatten = nonEmptyLines "skills\npython" ∧
    (createBlock ["skills", "python"] ResumeSection.skills).content = pyJoinNl ["skills", "python"] ∧
    (parseSections "skills\npython").lookup ResumeSection.skills =
      some (emittedFor (emittedGroups "skills\npython") ResumeSection.skills) :=
  ⟨(segmenter_blocks_partition_lines "skills\npython").1,
   (segmenter_blocks_partition_lines "skills\npython").2.1
     (ResumeSection.skills, ["skills", "python"]) (by decide),
   (segmenter_blocks_partition_lines "skills\npython").2.2 ResumeSection.skills⟩

/-- C3: for every input text that is empty or whitespace-only,
`parse_text` returns `success = false`, a non-empty error list, and no
document. -/
theorem parse_text_empty_input_fails (ro : RegexOracles) (useLLM : Bool)
    (llm : LLMOracle) (text : String) (h : pyStrip text = "") :
    (parse_text ro useLLM llm text).success = false ∧
    (parse_text ro useLLM llm text).errors ≠ [] ∧
    (parse_text ro useLLM llm text).resume = none := by
  have hi : (pyStrip text).data.isEmpty = true := by rw [h]; rfl
  refine ⟨?_, ?_, ?_⟩ <;> simp [parse_text, hi]

/-- Witness for C3 at the concrete whitespace-only input. -/
theorem parse_text_empty_input_fails_witness :
    pyStrip "  \n\t " = "" ∧
    ((parse_text oracleNone true llmNone "  \n\t ").success = false ∧
      (parse_text oracleNone true llmNone "  \n\t ").errors ≠ [] ∧
      (parse_text oracleNone true llmNone "  \n\t ").resume = none) :=
  ⟨by decide, parse_text_empty_input_fails oracleNone true llmNone "  \n\t " (by decide)⟩

/-- Counterexample to C4 as stated: on an input whose first ten raw
lines are blank, the first-10-non-empty-lines reading selects
`"Jane Doe"`, but the code, which scans `text.split('\n')[:10]` — the
first ten RAW lines, blank ones included — finds no name. -/
theorem contact_name_first10_counterexample :
    claimNameHeuristic tenBlankLinesInput = some "Jane Doe" ∧
    extractContactName tenBlankLinesInput = none := by
  constructor <;> decide

/-- C4 amended: the contact name is determined by scanning at most the
first 10 raw lines of the input (as split on newline, blank lines
included): the name is the first of those lines whose trimmed form is
non-empty, has length strictly between 2 and 50, and does not
case-insensitively contain any of `resume, cv, email, phone, linkedin`;
it is left unset if no scanned line qualifies. -/
theorem contact_name_scans_first10_raw_lines (text : String) :
    extractContactName text =
      (((pySplitLines text).take 10).map pyStrip).find? nameQualifies := by
  rw [extractContactName]
  generalize (pySplitLines text).take 10 = ls
  induction ls with
  | nil => rfl
  | cons l rest ih =>
    by_cases h : nameQualifies (pyStrip l) <;> simp [nameLoop, h, ih]

/-- C5: the heading test is deterministic in the fixed catalog order
`summary, experience, education, skills, projects, certifications`:
`findSection` equals the first-match search over that order; when a
line matches the patterns of several sections the earliest one in the
order wins; and the segmenter switches the current section to exactly
that winner. -/
theorem heading_tiebreak_catalog_order (p : String) :
    findSection p = catalogOrder.find? (fun s => matchesKind s p) ∧
    (∀ s s', findSection p = some s → matchesKind s' p = true →
      catalogIdx s ≤ catalogIdx s') ∧
    (∀ (rest : List String) (cur : ResumeSection) (buf : List String)
        (secs : List (ResumeSection × List ResumeBlock))
        (em : List (ResumeSection × List String)) (s : ResumeSection),
      findSection p = some s →
      parseSectionsGo (p :: rest) cur buf secs em =
        (match buf with
         | [] => parseSectionsGo rest s [p] secs em
         | b :: bs =>
           parseSectionsGo rest s [p]
             (appendBlock secs cur (createBlock (b :: bs) cur))
             (em ++ [(cur, b :: bs)]))) := by
  refine ⟨findSection_eq_find_catalog p, ?_, ?_⟩
  · intro s s' h hm
    rw [findSection_eq_find_catalog] at h
    have hps : matchesKind s p = true := by
      have h' := List.find?_some (p := fun k => matchesKind k p) h
      simpa using h'
    have hs : s ≠ .contact := matchesKind_ne_contact hps
    have hs' : s' ≠ .contact := matchesKind_ne_contact hm
    rw [catalogIdx_eq_indexOf s hs, catalogIdx_eq_indexOf s' hs']
    exact find?_min_idx catalogOrder _ s h s' hm (mem_catalogOrder s' hs')
  · intro rest cur buf secs em s h
    cases buf <;> simp [parseSectionsGo, h]

/-- Witness for C5 at `"education and training"`, which matches both
the `education` and the `certifications` patterns and resolves to
`education`. -/
theorem heading_tiebreak_catalog_order_witness :
    findSection "education and training" = some ResumeSection.education ∧
    matchesKind ResumeSection.certifications "education and training" = true ∧
    catalogIdx ResumeSection.education ≤ catalogIdx ResumeSection.certifications :=
  ⟨by decide, by decide,
   (heading_tiebreak_catalog_order "education and training").2.1
     ResumeSection.education ResumeSection.certifications (by decide) (by decide)⟩

/-- C6: keyword extraction is idempotent on stored blocks — every block
in the section map of any parse carries exactly the keyword list that
re-extracting from its own content yields — and case-insensitive: two
texts with the same lower-casing have the same extraction. -/
theorem keyword_extraction_idempotent_case_insensitive :
    (∀ (text : String) (s : ResumeSection) (v : List ResumeBlock) (b : ResumeBlock),
      (parseSections text).lookup s = some v → b ∈ v →
      extractKeywords b.content = b.keywords) ∧
    (∀ t u : String, pyLower t = pyLower u → extractKeywords t = extractKeywords u) := by
  constructor
  · intro text s v b hl hb
    rw [parseSections_lookup] at hl
    obtain rfl : v = emittedFor (emittedGroups text) s := by
      exact (Option.some_inj.mp hl).symm
    simp only [emittedFor, List.mem_filterMap] at hb
    obtain ⟨g, _, hgb⟩ := hb
    by_cases h : g.1 = s
    · rw [if_pos h] at hgb
      obtain rfl : createBlock g.2 g.1 = b := Option.some_inj.mp hgb
      rfl
    · rw [if_neg h] at hgb
      cases hgb
  · intro t u h
    unfold extractKeywords
    rw [h]

/-- Witness for C6: the block stored under `skills` for
`"skills\npython"`, and a case-variant pair. -/
theorem keyword_extraction_idempotent_case_insensitive_witness :
    extractKeywords (createBlock ["skills", "python"] ResumeSection.skills).content =
      (createBlock ["skills", "python"] ResumeSection.skills).keywords ∧
    extractKeywords "PYTHON and SQL" = extractKeywords "python AND sql" :=
  ⟨keyword_extraction_idempotent_case_insensitive.1 "skills\npython" ResumeSection.skills
      [createBlock ["skills", "python"] ResumeSection.skills]
      (createBlock ["skills", "python"] ResumeSection.skills) (by decide) (by decide),
   keyword_extraction_idempotent_case_insensitive.2 "PYTHON and SQL" "python AND sql" (by decide)⟩

/-- C7: for every successfully parsed input without remote correction,
the document's `all_keywords` equals the keyword extraction applied to
the whole raw text (it is computed from the raw text, not from the
per-block keyword sets). -/
theorem all_keywords_from_raw_text (ro : RegexOracles) (llm : LLMOracle)
    (text : String) (h : pyStrip text ≠ "") :
    ∃ d, (parse_text ro false llm text).resume = some d ∧
      d.raw_text = text ∧ d.all_keywords = extractKeywords d.raw_text := by
  rw [parse_text_nonempty ro false llm text h, parseTextInner_disabled]
  exact ⟨localParse ro text none, rfl, rfl, rfl⟩

/-- Witness for C7 at the concrete input `"skills"`. -/
theorem all_keywords_from_raw_text_witness :
    ∃ d, (parse_text oracleNone false llmNone "skills").resume = some d ∧
      d.raw_text = "skills" ∧ d.all_keywords = extractKeywords d.raw_text :=
  all_keywords_from_raw_text oracleNone llmNone "skills" (by decide)

/-- C8: when correction is disabled, or enabled but its attempt fails,
the orchestrator returns `success = true` with the document exactly the
pre-correction `localParse` result (same raw text, contact record,
sections, keyword sets) and an informational message recorded. -/
theorem correction_failure_preserves_document (ro : RegexOracles) (text : String)
    (h : pyStrip text ≠ "") :
    (∀ llm : LLMOracle,
      parse_text ro false llm text =
        { success := true, resume := some (localParse ro text none),
          messages := ["Resume parsed successfully"] }) ∧
    (∀ (llm : LLMOracle) (e : String), llm (localParse ro text none) = Except.error e →
      parse_text ro true llm text =
        { success := true, resume := some (localParse ro text none),
          messages := ["LLM correction failed, using initial parse.",
                       "LLM correction error: " ++ e] }) := by
  constructor
  · intro llm
    rw [parse_text_nonempty ro false llm text h, parseTextInner_disabled]
  · intro llm e he
    rw [parse_text_nonempty ro true llm text h, parseTextInner_llm_error ro llm text none e he]

/-- Witness for C8 at the concrete input `"skills"` with an
always-failing correction oracle. -/
theorem correction_failure_preserves_document_witness :
    parse_text oracleNone false llmNone "skills" =
      { success := true, resume := some (localParse oracleNone "skills" none),
        messages := ["Resume parsed successfully"] } ∧
    parse_text oracleNone true llmNone "skills" =
      { success := true, resume := some (localParse oracleNone "skills" none),
        messages := ["LLM correction failed, using initial parse.",
                     "LLM correction error: " ++ "unavailable"] } :=
  ⟨(correction_failure_preserves_document oracleNone "skills" (by decide)).1 llmNone,
   (correction_failure_preserves_document oracleNone "skills" (by decide)).2
     llmNone "unavailable" rfl⟩

/-- C9: `parse_file` fails with an error mentioning the path when the
path does not exist; fails with an unsupported-format error when the
lower-cased extension is not `.pdf`, `.docx` or `.txt`; fails with a
no-content error when the extracted text trims to nothing; and
otherwise delegates to the text-parsing pipeline on the extracted
text. -/
theorem parse_file_error_dispatch (ro : RegexOracles) (useLLM : Bool)
    (llm : LLMOracle) (path : String) (fo : FileOracle) :
    (fo.pathExists = false →
      parse_file ro useLLM llm path fo =
        { success := false, errors := ["File not found: " ++ path] } ∧
      containsSubstr ("File not found: " ++ path) path = true) ∧
    (fo.pathExists = true →
      ¬(pyLower fo.suffix = ".pdf" ∨ pyLower fo.suffix = ".docx" ∨ pyLower fo.suffix = ".txt") →
      parse_file ro useLLM llm path fo =
        { success := false, errors := ["Unsupported file format: " ++ pyLower fo.suffix] }) ∧
    (∀ text : String, fo.pathExists = true →
      (pyLower fo.suffix = ".pdf" ∨ pyLower fo.suffix = ".docx" ∨ pyLower fo.suffix = ".txt") →
      fo.extract = Except.ok text → pyStrip text = "" →
      parse_file ro useLLM llm path fo =
        { success := false, errors := ["No text content found in file"] }) ∧
    (∀ text : String, fo.pathExists = true →
      (pyLower fo.suffix = ".pdf" ∨ pyLower fo.suffix = ".docx" ∨ pyLower fo.suffix = ".txt") →
      fo.extract = Except.ok text → pyStrip text ≠ "" →
      parse_file ro useLLM llm path fo = parseTextInner ro useLLM llm text (some path)) := by
  refine ⟨?_, ?_, ?_, ?_⟩
  · intro h
    exact ⟨by simp [parse_file, h], containsSubstr_append_right "File not found: " path⟩
  · intro h hext
    have h1 : ¬ pyLower fo.suffix = ".pdf" := fun he => hext (Or.inl he)
    have h2 : ¬ pyLower fo.suffix = ".docx" := fun he => hext (Or.inr (Or.inl he))
    have h3 : ¬ pyLower fo.suffix = ".txt" := fun he => hext (Or.inr (Or.inr he))
    simp [parse_file, h, h1, h2, h3]
  · intro text h hext hok hempty
    have hi : (pyStrip text).data.isEmpty = true := by rw [hempty]; rfl
    rcases hext with he | he | he <;> simp [parse_file, h, he, hok, hi]
  · intro text h hext hok hne
    have hi : (pyStrip text).data.isEmpty = false := isEmpty_data_eq_false hne
    rcases hext with he | he | he <;> simp [parse_file, h, he, hok, hi]

/-- Witness for C9 exercising all four dispatch outcomes on concrete
file oracles. -/
theorem parse_file_error_dispatch_witness :
    (parse_file oracleNone false llmNone "missing.pdf" foMissing =
      { success := false, errors := ["File not found: " ++ "missing.pdf"] } ∧
      containsSubstr ("File not found: " ++ "missing.pdf") "missing.pdf" = true) ∧
    parse_file oracleNone false llmNone "r.rtf" foBadExt =
      { success := false, errors := ["Unsupported file format: " ++ pyLower foBadExt.suffix] } ∧
    parse_file oracleNone false llmNone "e.txt" foEmptyText =
      { success := false, errors := ["No text content found in file"] } ∧
    parse_file oracleNone false llmNone "g.txt" foGoodText =
      parseTextInner oracleNone false llmNone "skills" (some "g.txt") :=
  ⟨(parse_file_error_dispatch oracleNone false llmNone "missing.pdf" foMissing).1 rfl,
   (parse_file_error_dispatch oracleNone false llmNone "r.rtf" foBadExt).2.1 rfl (by decide),
   (parse_file_error_dispatch oracleNone false llmNone "e.txt" foEmptyText).2.2.1 "   "
     rfl (Or.inr (Or.inr (by decide))) rfl (by decide),
   (parse_file_error_dispatch oracleNone false llmNone "g.txt" foGoodText).2.2.2 "skills"
     rfl (Or.inr (Or.inr (by decide))) rfl (by decide)⟩

/-- C10: the local segmenter never assigns a block to the `contact`
kind — the heading catalog has no `contact` entry and the initial
current section is `summary` — so in every pre-correction document the
`contact` section is present and empty. -/
theorem contact_section_always_empty :
    (∀ (ro : RegexOracles) (text : String) (fp : Option String),
      ((localParse ro text fp).sections).lookup ResumeSection.contact = some []) ∧
    sectionPatterns.lookup ResumeSection.contact = none := by
  constructor
  · intro ro text fp
    show (parseSections text).lookup ResumeSection.contact = some []
    rw [parseSections_lookup, emittedFor_eq_nil (emittedGroups_ne_contact text)]
  · rfl

end ResumeScan
